import Mathlib

/-
Shallow embedding of the mergify-engine event-processing core:
  - mergify_engine/sub_utils.py        (subscription cache-aside layer)
  - mergify_engine/engine/__init__.py  (event router and summary continuity tracker)

External collaborators (HTTP clients, redis, crypto, the check-run API, the
persisted pointer store, the rule evaluator) are modelled as explicit state
passing and effect lists; machine behaviour that can raise a Python exception
is modelled with Except.
-/

/-! ## Subscription cache (sub_utils.py) -/

/-- A subscription value as returned by get_subscription: the token mapping is
login to access_token (sub_utils.py lines 38-47). -/
structure Subscription where
  tokens : List (String × String)
  subscription_active : Bool
  subscription_reason : Option String
deriving DecidableEq

/-- A token entry of the raw authoritative response before the tokens mapping is
rewritten (sub_utils.py line 45-47). -/
structure TokenInfo where
  access_token : String
deriving DecidableEq

/-- The raw JSON body of a successful authoritative subscription fetch. -/
structure RawSubscription where
  tokens : List (String × TokenInfo)
  subscription_active : Bool
  subscription_reason : Option String
deriving DecidableEq

/-- Outcome of the authoritative HTTP fetch in _retrieve_subscription_from_db:
a 2xx JSON body, an HTTPNotFound exception with its message, or any other
transport failure (which the code does not catch). -/
inductive DbResponse where
  | ok (sub : RawSubscription)
  | notFound (message : String)
  | failure (err : String)
deriving DecidableEq

/-- _retrieve_subscription_from_db (sub_utils.py lines 29-48): a not-found
response synthesizes an inactive subscription carrying the exception message;
a success rewrites the tokens mapping to login -> access_token; any other
failure propagates (modelled as Except.error). -/
def _retrieve_subscription_from_db (db : DbResponse) : Except String Subscription :=
  match db with
  | DbResponse.notFound msg =>
      Except.ok { tokens := [], subscription_active := false, subscription_reason := some msg }
  | DbResponse.ok raw =>
      Except.ok { tokens := raw.tokens.map (fun p => (p.1, p.2.access_token)),
                  subscription_active := raw.subscription_active,
                  subscription_reason := raw.subscription_reason }
  | DbResponse.failure e => Except.error e

/-- The redis cache state: entries are (key, stored subscription, expiry time).
Encryption and JSON serialization (crypto.encrypt/decrypt, json.dumps/loads,
external modules) round-trip and are abstracted away: the cache stores the
subscription value directly. -/
structure CacheState where
  entries : List (String × Subscription × Nat)
deriving DecidableEq

/-- The cache key "subscription-cache-owner-%s" (sub_utils.py lines 53, 61). -/
def cacheKey (owner_id : String) : String :=
  "subscription-cache-owner-" ++ owner_id

/-- Redis SETEX: store a value under a key with a time-to-live; the entry
expires ttl time units after the current time. Last writer wins. -/
def redisSetex (st : CacheState) (key : String) (ttl : Nat) (v : Subscription)
    (now : Nat) : CacheState :=
  { entries := (st.entries.filter (fun e => e.1 != key)) ++ [(key, v, now + ttl)] }

/-- Redis GET: return the stored value when the key exists and its expiry lies
strictly in the future. -/
def redisGet (st : CacheState) (key : String) (now : Nat) : Option Subscription :=
  match st.entries.find? (fun e => e.1 == key) with
  | some e => if now < e.2.2 then some e.2.1 else none
  | none => none

/-- save_subscription_to_cache (sub_utils.py lines 58-61): SETEX with a fixed
TTL of 3600. -/
def save_subscription_to_cache (st : CacheState) (now : Nat) (owner_id : String)
    (sub : Subscription) : CacheState :=
  redisSetex st (cacheKey owner_id) 3600 sub now

/-- _retrieve_subscription_from_cache (sub_utils.py lines 51-55): GET and
decrypt/deserialize on hit. -/
def _retrieve_subscription_from_cache (st : CacheState) (now : Nat)
    (owner_id : String) : Option Subscription :=
  redisGet st (cacheKey owner_id) now

/-- get_subscription (sub_utils.py lines 64-69): cache hit returns immediately;
on a miss the authoritative source is consulted and the result written back.
The returned Bool records whether the authoritative source was invoked. -/
def get_subscription (st : CacheState) (now : Nat) (owner_id : String)
    (db : DbResponse) : Except String (Subscription × CacheState × Bool) :=
  match _retrieve_subscription_from_cache st now owner_id with
  | some sub => Except.ok (sub, st, false)
  | none =>
      match _retrieve_subscription_from_db db with
      | Except.ok sub =>
          Except.ok (sub, save_subscription_to_cache st now owner_id sub, true)
      | Except.error e => Except.error e

lemma find_filter_append (l : List (String × Subscription × Nat)) (k : String)
    (x : String × Subscription × Nat) (hx : x.1 = k) :
    ((l.filter (fun e => e.1 != k)) ++ [x]).find? (fun e => e.1 == k) = some x := by
  induction l with
  | nil => simp [List.find?, hx]
  | cons a rest ih =>
      by_cases h : a.1 = k
      · simpa [List.filter_cons, h] using ih
      · simpa [List.filter_cons, h, List.find?] using ih

lemma redisGet_redisSetex (st : CacheState) (k : String) (ttl : Nat)
    (v : Subscription) (now now2 : Nat) :
    redisGet (redisSetex st k ttl v now) k now2 =
      if now2 < now + ttl then some v else none := by
  unfold redisGet redisSetex
  rw [find_filter_append st.entries k (k, v, now + ttl) rfl]

/-- C8: get_subscription after save_subscription_to_cache for the same account,
while the TTL (3600) is unexpired, returns exactly the saved subscription
without invoking the authoritative source; once the TTL has expired it invokes
the authoritative source again. -/
theorem get_subscription_after_save (st : CacheState) (t t2 t3 : Nat)
    (owner : String) (sub s : Subscription) (db : DbResponse) :
    (t2 < t + 3600 →
      get_subscription (save_subscription_to_cache st t owner sub) t2 owner db =
        Except.ok (sub, save_subscription_to_cache st t owner sub, false))
    ∧ (t + 3600 ≤ t3 → _retrieve_subscription_from_db db = Except.ok s →
      get_subscription (save_subscription_to_cache st t owner sub) t3 owner db =
        Except.ok (s,
          save_subscription_to_cache (save_subscription_to_cache st t owner sub) t3 owner s,
          true)) := by
  constructor
  · intro h
    unfold get_subscription _retrieve_subscription_from_cache save_subscription_to_cache
    rw [redisGet_redisSetex]
    simp [h]
  · intro h hdb
    unfold get_subscription _retrieve_subscription_from_cache
    unfold save_subscription_to_cache
    rw [redisGet_redisSetex]
    rw [if_neg (by omega)]
    simp [hdb, save_subscription_to_cache]

/-- Witness for C8 at a concrete cache state, subscription and times. -/
theorem get_subscription_after_save_witness :
    ((1 : Nat) < 0 + 3600 ∧
      get_subscription
          (save_subscription_to_cache ⟨[]⟩ 0 "owner1" ⟨[("a", "tok")], true, none⟩)
          1 "owner1" (DbResponse.ok ⟨[], true, none⟩) =
        Except.ok (⟨[("a", "tok")], true, none⟩,
          save_subscription_to_cache ⟨[]⟩ 0 "owner1" ⟨[("a", "tok")], true, none⟩, false))
    ∧ ((0 : Nat) + 3600 ≤ 3600 ∧
      get_subscription
          (save_subscription_to_cache ⟨[]⟩ 0 "owner1" ⟨[("a", "tok")], true, none⟩)
          3600 "owner1" (DbResponse.ok ⟨[], true, none⟩) =
        Except.ok (⟨[], true, none⟩,
          save_subscription_to_cache
            (save_subscription_to_cache ⟨[]⟩ 0 "owner1" ⟨[("a", "tok")], true, none⟩)
            3600 "owner1" ⟨[], true, none⟩, true)) :=
  ⟨⟨by decide,
    (get_subscription_after_save ⟨[]⟩ 0 1 3600 "owner1" ⟨[("a", "tok")], true, none⟩
      ⟨[], true, none⟩ (DbResponse.ok ⟨[], true, none⟩)).1 (by decide)⟩,
   ⟨by decide,
    (get_subscription_after_save ⟨[]⟩ 0 1 3600 "owner1" ⟨[("a", "tok")], true, none⟩
      ⟨[], true, none⟩ (DbResponse.ok ⟨[], true, none⟩)).2 (by decide) rfl⟩⟩

/-- C9: on a cache miss, a not-found authoritative response yields an inactive
subscription (active false, empty tokens) carrying the not-found reason, which
is written to the cache with TTL 3600 exactly as a normal result, without
raising; any other authoritative failure propagates to the caller uncaught. -/
theorem get_subscription_miss_cases (st : CacheState) (now : Nat)
    (owner msg err : String)
    (hmiss : _retrieve_subscription_from_cache st now owner = none) :
    (get_subscription st now owner (DbResponse.notFound msg) =
      Except.ok (⟨[], false, some msg⟩,
        save_subscription_to_cache st now owner ⟨[], false, some msg⟩, true))
    ∧ get_subscription st now owner (DbResponse.failure err) = Except.error err := by
  constructor
  · unfold get_subscription
    rw [hmiss]
    rfl
  · unfold get_subscription
    rw [hmiss]
    rfl

/-- Witness for C9 at the empty cache. -/
theorem get_subscription_miss_cases_witness :
    _retrieve_subscription_from_cache ⟨[]⟩ 0 "owner2" = none ∧
    (get_subscription ⟨[]⟩ 0 "owner2" (DbResponse.notFound "no sub") =
      Except.ok (⟨[], false, some "no sub"⟩,
        save_subscription_to_cache ⟨[]⟩ 0 "owner2" ⟨[], false, some "no sub"⟩, true))
    ∧ get_subscription ⟨[]⟩ 0 "owner2" (DbResponse.failure "boom") =
        Except.error "boom" :=
  ⟨rfl, get_subscription_miss_cases ⟨[]⟩ 0 "owner2" "no sub" "boom" rfl⟩

/-! ## Engine data model (engine/__init__.py) -/

/-- The comment payload of an issue_comment event (engine/__init__.py
lines 186-187). -/
structure Comment where
  body : String
  user : String
deriving DecidableEq

/-- The data payload of an event: an action string, optional before/after
revision fields for pull_request synchronize events, and an optional comment
payload for issue_comment events. Absent dictionary keys are modelled as
none. -/
structure EventData where
  action : String
  after : Option String := none
  before : Option String := none
  comment : Option Comment := none
deriving DecidableEq

/-- One incoming event source: event_type and data payload. -/
structure Event where
  event_type : String
  data : EventData
deriving DecidableEq

/-- The user-visible output of a check-run. -/
structure CheckOutput where
  title : String
  summary : String
deriving DecidableEq

/-- A published check-run: name, the id of the app that published it, and its
output. -/
structure Check where
  name : String
  appId : Nat
  output : CheckOutput
deriving DecidableEq

/-- A changed file of the pull request (engine/__init__.py lines 43-45). -/
structure FileEntry where
  filename : String
  contents_url : String
deriving DecidableEq

/-- An InvalidRules exception: its message and the output of
get_annotations. -/
structure InvalidRulesInfo where
  message : String
  anns : List String
deriving DecidableEq

/-- Outcome of rules.get_mergify_config at the default revision
(engine/__init__.py lines 213-220): missing document, invalid document, or a
valid configuration carrying its filename and ordered rule list. Rules are
opaque to this core. -/
inductive ConfigResult where
  | noRules
  | invalid (e : InvalidRulesInfo)
  | valid (filename : String) (rules : List String)
deriving DecidableEq

/-- The per-run context together with the externally observable state the
engine reads: pull request snapshot fields, the filtered event sources, the
persisted last-summary-head pointer, the check-run store (per revision), the
integration id, the permission staleness flag, the recognized configuration
filenames, the outcome of configuration validation pinned at a revision
(refConfig, some means InvalidRules), the outcome of the default configuration
fetch, the baseline rule list, and subscription entitlement fields. -/
structure Ctxt where
  headSha : String
  baseRef : String
  baseDefaultBranch : String
  basePrivate : Bool
  files : List FileEntry
  sources : List Event
  pointer : Option String
  checks : String → List Check
  integrationId : Nat
  permissionsStale : Bool
  configFilenames : List String
  refConfig : String → Option InvalidRulesInfo
  configResult : ConfigResult
  defaultRules : List String
  hasPrivateRepoFeature : Bool
  subReason : String

/-- Externally observable writes the engine performs during a run. -/
inductive Effect where
  | runPendingCommands
  | handleCommand (body user : String)
  | setCheckRun (sha name status conclusion title summary : String) (anns : List String)
  | savePointer (sha : String)
  | deletePointer
  | handleActions (rules : List String)
deriving DecidableEq

/-- Modelled from the spec: the reserved Summary check name used by the engine
(actions_runner.SUMMARY_NAME is outside the provided sources; the router
itself posts the permission failure under the literal name "Summary",
engine/__init__.py line 196). -/
def SUMMARY_NAME : String := "Summary"

/-- Modelled from the spec: the persisted last-summary-head-revision pointer
store (get/save/delete, scoped per pull request, surviving across runs);
actions_runner.get_last_summary_head_sha is outside the provided sources.
get returns the stored revision or absent. -/
def get_last_summary_head_sha (ctxt : Ctxt) : Option String :=
  ctxt.pointer

/-- Truthiness of an optional string as Python evaluates it: None and the
empty string are falsy. -/
def truthy : Option String → Bool
  | none => false
  | some s => s != ""

/-- How an effect updates the observable state: set_check_run publishes a
check-run under this integration's app id at the given revision, replacing a
prior check of the same name by this app; save and delete update the persisted
pointer (save_last_summary_head_sha / delete_last_summary_head_sha are
modelled from the spec: the pointer is set to the given head revision or
removed). External handoffs leave the state unchanged. publishCheck is the
check-run store update of set_check_run, applied pointwise per revision. -/
def publishCheck (ctxt : Ctxt) (sha name title summary : String) (s : String) :
    List Check :=
  if s = sha then
    ((ctxt.checks s).filter
        (fun c => !(c.name == name && c.appId == ctxt.integrationId)))
      ++ [{ name := name, appId := ctxt.integrationId,
            output := { title := title, summary := summary } }]
  else ctxt.checks s

def applyEffect (ctxt : Ctxt) : Effect → Ctxt
  | Effect.setCheckRun sha name _ _ title summary _ =>
      { ctxt with checks := publishCheck ctxt sha name title summary }
  | Effect.savePointer sha => { ctxt with pointer := some sha }
  | Effect.deletePointer => { ctxt with pointer := none }
  | _ => ctxt

/-- Modelled from the spec: the Context caches the check-runs previously
fetched for the pull request's current head, restricted to this integration
(the check-run list operation filters by app); the Context class is outside
the provided sources. -/
def pull_engine_check_runs (ctxt : Ctxt) : List Check :=
  (ctxt.checks ctxt.headSha).filter (fun c => c.appId == ctxt.integrationId)

/-- check_api.get_checks_for_ref with a check_name filter: the check-runs at a
revision carrying the given name. -/
def get_checks_for_ref (ctxt : Ctxt) (sha : String) (check_name : String) : List Check :=
  (ctxt.checks sha).filter (fun c => c.name == check_name)

/-- get_summary_from_sha (engine/__init__.py lines 82-90): the check-runs at
the revision named SUMMARY_NAME, restricted to this integration's app id; the
first one if any, otherwise none. -/
def get_summary_from_sha (ctxt : Ctxt) (sha : String) : Option Check :=
  let checks := get_checks_for_ref ctxt sha SUMMARY_NAME
  let checks2 := checks.filter (fun c => c.appId == ctxt.integrationId)
  checks2.head?

/-! ## Summary continuity tracker (engine/__init__.py lines 93-162) -/

/-- Insertion into a Python dict rendered as an association list: an existing
key keeps its position and gets the new value, a new key is appended. -/
def dictInsert (m : List (String × EventData)) (k : String) (v : EventData) :
    List (String × EventData) :=
  if m.any (fun p => p.1 == k) then
    m.map (fun p => if p.1 == k then (k, v) else p)
  else m ++ [(k, v)]

/-- Python dict.pop(key, None): remove the first (and, for a dict, only) entry
with the key, returning its value and the remaining entries. -/
def dictPop : List (String × EventData) → String →
    Option EventData × List (String × EventData)
  | [], _ => (none, [])
  | p :: rest, k =>
      if p.1 == k then (some p.2, rest)
      else
        let r := dictPop rest k
        (r.1, p :: r.2)

/-- Python key-in-dict lookup. -/
def dictLookup (m : List (String × EventData)) (k : String) : Option EventData :=
  (m.find? (fun p => p.1 == k)).map (fun p => p.2)

/-- A pull_request event whose action is "synchronize": the event-type and
action conditions of the dict comprehension at engine/__init__.py
lines 113-114. -/
def is_synchronize (s : Event) : Bool :=
  s.event_type == "pull_request" && s.data.action == "synchronize"

/-- The dict-comprehension filter of get_summary_from_synchronize_event
(engine/__init__.py lines 109-117): a pull_request event with action
"synchronize" contributes its after revision as key; events without an after
field are skipped. -/
def sync_key (s : Event) : Option String :=
  if is_synchronize s then s.data.after else none

/-- One step of building the synchronize-event dict. -/
def sync_step (m : List (String × EventData)) (s : Event) :
    List (String × EventData) :=
  match sync_key s with
  | some k => dictInsert m k s.data
  | none => m

/-- The dict built at engine/__init__.py lines 109-117: after-revision mapped
to event data, over the run's event sources in order. -/
def synchronize_events (sources : List Event) : List (String × EventData) :=
  sources.foldl sync_step []

/-- Result of the continuity while-loop: a previous Summary was found, the
loop stopped (map exhausted or current revision not a key), or the event
popped for the current revision had no before field (a Python KeyError at
engine/__init__.py line 128). -/
inductive WalkResult where
  | found (c : Check)
  | stopped
  | keyError
deriving DecidableEq

lemma dictPop_length : ∀ (m : List (String × EventData)) (k : String)
    (ev : EventData) (m2 : List (String × EventData)),
    dictPop m k = (some ev, m2) → m2.length < m.length := by
  intro m
  induction m with
  | nil => intro k ev m2 h; simp [dictPop] at h
  | cons p rest ih =>
      intro k ev m2 h
      by_cases hk : p.1 == k
      · rw [dictPop, if_pos hk] at h
        cases h
        simp
      · rw [dictPop, if_neg hk] at h
        obtain ⟨h1, h2⟩ := Prod.mk.injEq .. ▸ h
        have := ih k ev (dictPop rest k).2 (by rw [← h1])
        subst h2
        simpa using Nat.succ_lt_succ this

/-- The while-loop of get_summary_from_synchronize_event (engine/__init__.py
lines 124-137), written with an explicit budget of remaining iterations: pop
the event keyed by the current revision; on a hit, return the Summary found at
its before revision, or continue from that before revision; on a miss (or
once the dict is empty) stop. Popping an event with no before field raises
(keyError). -/
def walkFuel (ctxt : Ctxt) : Nat → List (String × EventData) → String → WalkResult
  | 0, _, _ => WalkResult.stopped
  | fuel + 1, m, sha =>
      match dictPop m sha with
      | (none, _) => WalkResult.stopped
      | (some ev, m2) =>
          match ev.before with
          | none => WalkResult.keyError
          | some b =>
              match get_summary_from_sha ctxt b with
              | some c => WalkResult.found c
              | none => walkFuel ctxt fuel m2 b

/-- The while-loop itself: every iteration pops the entry keyed by the current
revision out of the dict, so the loop ends within as many iterations as the
dict has entries; the stabilization lemma walkFuel_stable below shows that
this budget is not restrictive (any larger budget gives the same result). -/
def walk (ctxt : Ctxt) (m : List (String × EventData)) (sha : String) : WalkResult :=
  walkFuel ctxt m.length m sha

/-- get_summary_from_synchronize_event (engine/__init__.py lines 93-137):
build the synchronize-event dict; when it is nonempty, run the continuity
walk starting at the pull request's current head revision. -/
def get_summary_from_synchronize_event (ctxt : Ctxt) :
    Except String (Option Check) :=
  let m := synchronize_events ctxt.sources
  if m.isEmpty then Except.ok none
  else
    match walk ctxt m ctxt.headSha with
    | WalkResult.found c => Except.ok (some c)
    | WalkResult.stopped => Except.ok none
    | WalkResult.keyError => Except.error "KeyError"

/-- ensure_summary_on_head_sha (engine/__init__.py lines 140-162): if an
engine check-run named Summary already exists for the head, do nothing;
otherwise use the persisted pointer when truthy (no fallback), else the
synchronize-event walk; republish any Summary found (completed/success, same
title and body) against the head and save the pointer to the head revision. -/
def ensure_summary_on_head_sha (ctxt : Ctxt) : Except String (Ctxt × List Effect) :=
  if (pull_engine_check_runs ctxt).any (fun c => c.name == SUMMARY_NAME) then
    Except.ok (ctxt, [])
  else
    let shaOpt := get_last_summary_head_sha ctxt
    let prev : Except String (Option Check) :=
      if truthy shaOpt then Except.ok (get_summary_from_sha ctxt (shaOpt.getD ""))
      else get_summary_from_synchronize_event ctxt
    match prev with
    | Except.error e => Except.error e
    | Except.ok none => Except.ok (ctxt, [])
    | Except.ok (some ps) =>
        let e1 := Effect.setCheckRun ctxt.headSha SUMMARY_NAME "completed" "success"
          ps.output.title ps.output.summary []
        let ctxt1 := applyEffect ctxt e1
        let e2 := Effect.savePointer ctxt1.headSha
        Except.ok (applyEffect ctxt1 e2, [e1, e2])

/-! ## Event router (engine/__init__.py lines 40-79 and 165-273) -/

/-- The ref extraction of check_configuration_changes (engine/__init__.py
line 45): contents_url.split("?ref=")[1]; indexing past the end raises. -/
def extract_ref (url : String) : Except String String :=
  match (url.splitOn "?ref=").get? 1 with
  | some r => Except.ok r
  | none => Except.error "IndexError"

/-- The file loop of check_configuration_changes (engine/__init__.py
lines 42-45): the last changed file with a recognized configuration filename
determines the pinned revision; MERGIFY_CONFIG_FILENAMES is the recognized
set. -/
def find_config_ref (names : List String) (files : List FileEntry) :
    Except String (Option String) :=
  files.foldlM
    (fun acc f =>
      if names.contains f.filename then (extract_ref f.contents_url).map some
      else Except.ok acc)
    none

/-- check_configuration_changes (engine/__init__.py lines 40-79): on the
default branch, when a recognized configuration file changed, re-validate the
configuration pinned at the changed revision and publish a success or failure
Summary; returns whether a configuration change was detected. -/
def check_configuration_changes (ctxt : Ctxt) :
    Except String (Bool × Ctxt × List Effect) :=
  if ctxt.baseDefaultBranch == ctxt.baseRef then
    match find_config_ref ctxt.configFilenames ctxt.files with
    | Except.error e => Except.error e
    | Except.ok none => Except.ok (false, ctxt, [])
    | Except.ok (some ref) =>
        match ctxt.refConfig ref with
        | some err =>
            let e := Effect.setCheckRun ctxt.headSha SUMMARY_NAME "completed" "failure"
              "The new Mergify configuration is invalid" err.message err.anns
            Except.ok (true, applyEffect ctxt e, [e])
        | none =>
            let e := Effect.setCheckRun ctxt.headSha SUMMARY_NAME "completed" "success"
              "The new Mergify configuration is valid"
              "This pull request must be merged manually because it modifies Mergify configuration"
              []
            Except.ok (true, applyEffect ctxt e, [e])
  else Except.ok (false, ctxt, [])

/-- The comment-dispatch loop of run (engine/__init__.py lines 181-188): each
issue_comment source is handed to the command handler with the comment body
and author; a source without a comment payload raises. -/
def commandEffects : List Event → Except String (List Effect)
  | [] => Except.ok []
  | s :: rest =>
      match s.data.comment with
      | none => Except.error "KeyError"
      | some c =>
          match commandEffects rest with
          | Except.ok effs => Except.ok (Effect.handleCommand c.body c.user :: effs)
          | Except.error e => Except.error e

/-- run (engine/__init__.py lines 165-273): partition sources, drain pending
commands and dispatch comment commands, then apply the gates in order (empty
sources, stale permissions, configuration change, configuration resolution,
private-repository entitlement), ensure summary continuity, delete the
persisted pointer when the batch holds a closed pull_request event, and hand
the merged rule list (repository rules extended with the baseline rules) to
the action runner. -/
def run (ctxt0 : Ctxt) (sources : List Event) : Except String (Ctxt × List Effect) :=
  let issue_comment_sources := sources.filter (fun s => s.event_type == "issue_comment")
  let ctxt : Ctxt := { ctxt0 with sources := sources.filter (fun s => s.event_type != "issue_comment") }
  match commandEffects issue_comment_sources with
  | Except.error e => Except.error e
  | Except.ok cmdEffs =>
    let effs0 := Effect.runPendingCommands :: cmdEffs
    if ctxt.sources.isEmpty then Except.ok (ctxt, effs0)
    else if ctxt.permissionsStale then
      let e := Effect.setCheckRun ctxt.headSha "Summary" "completed" "failure"
        "Required GitHub permissions are missing."
        "You can accept them at https://dashboard.mergify.io/" []
      Except.ok (applyEffect ctxt e, effs0 ++ [e])
    else
      match check_configuration_changes ctxt with
      | Except.error e => Except.error e
      | Except.ok (changed, ctxt2, ccEffs) =>
        if changed then Except.ok (ctxt2, effs0 ++ ccEffs)
        else
          match ctxt2.configResult with
          | ConfigResult.noRules => Except.ok (ctxt2, effs0 ++ ccEffs)
          | ConfigResult.invalid err =>
              if ctxt2.sources.any (fun s => s.event_type == "pull_request" &&
                  (s.data.action == "opened" || s.data.action == "synchronize")) then
                let e := Effect.setCheckRun ctxt2.headSha SUMMARY_NAME "completed" "failure"
                  "The Mergify configuration is invalid" err.message err.anns
                Except.ok (applyEffect ctxt2 e, effs0 ++ ccEffs ++ [e])
              else Except.ok (ctxt2, effs0 ++ ccEffs)
          | ConfigResult.valid _fn repoRules =>
              let merged := repoRules ++ ctxt2.defaultRules
              if ctxt2.basePrivate && !ctxt2.hasPrivateRepoFeature then
                let e := Effect.setCheckRun ctxt2.headSha SUMMARY_NAME "completed" "failure"
                  "Mergify is disabled" ctxt2.subReason []
                Except.ok (applyEffect ctxt2 e, effs0 ++ ccEffs ++ [e])
              else
                match ensure_summary_on_head_sha ctxt2 with
                | Except.error e => Except.error e
                | Except.ok (ctxt3, ensEffs) =>
                    let closed := ctxt3.sources.any (fun s =>
                      s.event_type == "pull_request" && s.data.action == "closed")
                    let ctxt4 := if closed then applyEffect ctxt3 Effect.deletePointer else ctxt3
                    let delEffs := if closed then [Effect.deletePointer] else []
                    Except.ok (ctxt4,
                      effs0 ++ ccEffs ++ ensEffs ++ delEffs ++ [Effect.handleActions merged])

/-! ## Claim theorems for the continuity tracker -/

/-- C10: get_summary_from_sha returns the first check-run at the revision
whose name is the reserved Summary name and whose app id equals the configured
integration id; when no check-run satisfies both, it returns nothing, so a
summary-named check published by another app is never picked up. -/
theorem get_summary_from_sha_app_restricted (ctxt : Ctxt) (sha : String) :
    get_summary_from_sha ctxt sha =
      ((ctxt.checks sha).filter
        (fun c => c.name == SUMMARY_NAME && c.appId == ctxt.integrationId)).head?
    ∧ (∀ c, get_summary_from_sha ctxt sha = some c →
        c ∈ ctxt.checks sha ∧ c.name = SUMMARY_NAME ∧ c.appId = ctxt.integrationId)
    ∧ ((∀ c ∈ ctxt.checks sha,
          ¬(c.name = SUMMARY_NAME ∧ c.appId = ctxt.integrationId)) →
        get_summary_from_sha ctxt sha = none) := by
  have hfil : get_summary_from_sha ctxt sha =
      ((ctxt.checks sha).filter
        (fun c => c.name == SUMMARY_NAME && c.appId == ctxt.integrationId)).head? := by
    simp only [get_summary_from_sha, get_checks_for_ref]
    rw [List.filter_filter]
    apply congrArg List.head?
    apply List.filter_congr
    intro c _
    exact Bool.and_comm ..
  refine ⟨hfil, ?_, ?_⟩
  · intro c hc
    rw [hfil] at hc
    rcases hl : (ctxt.checks sha).filter
        (fun c => c.name == SUMMARY_NAME && c.appId == ctxt.integrationId) with _ | ⟨x, xs⟩
    · rw [hl] at hc; cases hc
    · rw [hl] at hc
      have hx : x = c := by simpa using hc
      subst hx
      have hmem : x ∈ (ctxt.checks sha).filter
          (fun c => c.name == SUMMARY_NAME && c.appId == ctxt.integrationId) := by
        rw [hl]; exact List.mem_cons_self x xs
      have hpred := List.of_mem_filter hmem
      have hmem2 := List.mem_of_mem_filter hmem
      simp only [Bool.and_eq_true, beq_iff_eq] at hpred
      exact ⟨hmem2, hpred.1, hpred.2⟩
  · intro hno
    rw [hfil]
    have hempty : (ctxt.checks sha).filter
        (fun c => c.name == SUMMARY_NAME && c.appId == ctxt.integrationId) = [] := by
      rw [List.filter_eq_nil_iff]
      intro c hc
      have := hno c hc
      simp only [Bool.and_eq_true, beq_iff_eq]
      tauto
    rw [hempty]
    rfl

lemma ensure_noop_of_summary (ctxt : Ctxt)
    (h : (pull_engine_check_runs ctxt).any (fun c => c.name == SUMMARY_NAME) = true) :
    ensure_summary_on_head_sha ctxt = Except.ok (ctxt, []) := by
  unfold ensure_summary_on_head_sha
  rw [if_pos h]

/-- C4: when an engine check-run named Summary already exists for the current
head, ensure_summary_on_head_sha performs no writes, and running it twice
produces no writes either. -/
theorem ensure_idempotent_when_summary_exists (ctxt : Ctxt)
    (h : (pull_engine_check_runs ctxt).any (fun c => c.name == SUMMARY_NAME) = true) :
    ensure_summary_on_head_sha ctxt = Except.ok (ctxt, []) ∧
    (ensure_summary_on_head_sha ctxt).bind
        (fun r => ensure_summary_on_head_sha r.1) = Except.ok (ctxt, []) := by
  have h1 := ensure_noop_of_summary ctxt h
  refine ⟨h1, ?_⟩
  rw [h1]
  exact h1

/-- A neutral context used by the concrete witnesses: public repository on its
default branch, no files, no sources, no persisted pointer, no check-runs,
valid but empty configuration. -/
def baseCtxt : Ctxt :=
  { headSha := "h", baseRef := "feature", baseDefaultBranch := "main",
    basePrivate := false, files := [], sources := [], pointer := none,
    checks := fun _ => [], integrationId := 12345, permissionsStale := false,
    configFilenames := [], refConfig := fun _ => none,
    configResult := ConfigResult.valid "mergify.yml" [],
    defaultRules := [], hasPrivateRepoFeature := true, subReason := "" }

/-- The Summary check-run published by this integration, as stored in the
witness contexts. -/
def summaryCheckW : Check :=
  { name := "Summary", appId := 12345,
    output := { title := "t0", summary := "s0" } }

/-- Witness for C4: a context whose head already carries the engine Summary. -/
theorem ensure_idempotent_when_summary_exists_witness :
    (pull_engine_check_runs
        { baseCtxt with checks := fun s => if s = "h" then [summaryCheckW] else [] }).any
        (fun c => c.name == SUMMARY_NAME) = true ∧
    (ensure_summary_on_head_sha
        { baseCtxt with checks := fun s => if s = "h" then [summaryCheckW] else [] } =
      Except.ok
        ({ baseCtxt with checks := fun s => if s = "h" then [summaryCheckW] else [] }, []) ∧
    (ensure_summary_on_head_sha
        { baseCtxt with checks := fun s => if s = "h" then [summaryCheckW] else [] }).bind
        (fun r => ensure_summary_on_head_sha r.1) =
      Except.ok
        ({ baseCtxt with checks := fun s => if s = "h" then [summaryCheckW] else [] }, [])) :=
  ⟨rfl,
   ensure_idempotent_when_summary_exists
     { baseCtxt with checks := fun s => if s = "h" then [summaryCheckW] else [] } rfl⟩

/-- C2: when no Summary exists for the head and the persisted pointer is
present (truthy) but no Summary is found at the pointed-to revision,
ensure_summary_on_head_sha republishes nothing and performs no writes; the
synchronize-chain walk is never consulted. -/
theorem ensure_pointer_miss_no_fallback (ctxt : Ctxt) (sha : String)
    (hnosum : (pull_engine_check_runs ctxt).any (fun c => c.name == SUMMARY_NAME) = false)
    (hptr : get_last_summary_head_sha ctxt = some sha)
    (hsha : sha ≠ "")
    (hmiss : get_summary_from_sha ctxt sha = none) :
    ensure_summary_on_head_sha ctxt = Except.ok (ctxt, []) := by
  unfold ensure_summary_on_head_sha
  rw [if_neg (by rw [hnosum]; exact Bool.false_ne_true)]
  simp [hptr, truthy, hsha, hmiss]

lemma walkFuel_congr (ctxt : Ctxt) :
    ∀ (fuel fuel2 : Nat) (m : List (String × EventData)) (sha : String),
    m.length ≤ fuel → m.length ≤ fuel2 →
    walkFuel ctxt fuel m sha = walkFuel ctxt fuel2 m sha := by
  intro fuel
  induction fuel with
  | zero =>
      intro fuel2 m sha h h2
      have hm : m = [] := List.length_eq_zero.mp (Nat.le_zero.mp h)
      subst hm
      cases fuel2 with
      | zero => rfl
      | succ n2 => rfl
  | succ n ih =>
      intro fuel2 m sha h h2
      cases fuel2 with
      | zero =>
          have hm : m = [] := List.length_eq_zero.mp (Nat.le_zero.mp h2)
          subst hm
          rfl
      | succ n2 =>
          rcases hdp : dictPop m sha with ⟨fst, m2⟩
          cases fst with
          | none => simp only [walkFuel, hdp]
          | some ev =>
              cases hb : ev.before with
              | none => simp only [walkFuel, hdp, hb]
              | some b =>
                  cases hs : get_summary_from_sha ctxt b with
                  | some c => simp only [walkFuel, hdp, hb, hs]
                  | none =>
                      simp only [walkFuel, hdp, hb, hs]
                      have hlt := dictPop_length m sha ev m2 hdp
                      exact ih n2 m2 b (by omega) (by omega)

lemma walkFuel_stable (ctxt : Ctxt) (fuel : Nat) (m : List (String × EventData))
    (sha : String) (h : m.length ≤ fuel) :
    walkFuel ctxt fuel m sha = walk ctxt m sha :=
  walkFuel_congr ctxt fuel m.length m sha h le_rfl

/-- A synchronize event moving the head from "b" to "h", used by witnesses. -/
def evSyncHB : Event :=
  { event_type := "pull_request",
    data := { action := "synchronize", after := some "h", before := some "b",
              comment := none } }

/-- Witness context for C2: pointer present but stale (no Summary at "p"),
while the synchronize chain would have found the Summary stored at "b". -/
def ctxtW2 : Ctxt :=
  { baseCtxt with
    pointer := some "p"
    sources := [evSyncHB]
    checks := fun s => (if s = "b" then [summaryCheckW] else []) }

/-- Witness for C2: the pointer is present, its Summary lookup misses, and
nothing is republished even though the synchronize-event walk would have found
a Summary. -/
theorem ensure_pointer_miss_no_fallback_witness :
    ((pull_engine_check_runs ctxtW2).any (fun c => c.name == SUMMARY_NAME) = false) ∧
    get_last_summary_head_sha ctxtW2 = some "p" ∧
    "p" ≠ "" ∧
    get_summary_from_sha ctxtW2 "p" = none ∧
    get_summary_from_synchronize_event ctxtW2 = Except.ok (some summaryCheckW) ∧
    ensure_summary_on_head_sha ctxtW2 = Except.ok (ctxtW2, []) :=
  ⟨rfl, rfl, by decide, rfl, rfl,
    ensure_pointer_miss_no_fallback ctxtW2 "p" rfl rfl (by decide) rfl⟩

/-- The event data of one link of a synchronize chain: after the first
component, before the second. -/
def chainEvent (p : String × String) : EventData :=
  { action := "synchronize", after := some p.1, before := some p.2,
    comment := none }

/-- The synchronize-event dict induced by a chain of (after, before) links. -/
def chainMap (ch : List (String × String)) : List (String × EventData) :=
  ch.map (fun p => (p.1, chainEvent p))

/-- A chain of synchronize links along which the continuity walk must travel:
each link's before revision is the next link's after revision, no Summary
exists at any intermediate before revision, and the Summary S sits at the last
link's before revision. -/
def chainOk (ctxt : Ctxt) (S : Check) : List (String × String) → Prop
  | [] => False
  | [(_, b)] => get_summary_from_sha ctxt b = some S
  | (_, b) :: (a2, b2) :: rest =>
      get_summary_from_sha ctxt b = none ∧ b = a2 ∧
        chainOk ctxt S ((a2, b2) :: rest)

lemma walkFuel_cons_self (ctxt : Ctxt) (fuel : Nat) (a : String) (ev : EventData)
    (rest : List (String × EventData)) :
    walkFuel ctxt (fuel + 1) ((a, ev) :: rest) a =
      (match ev.before with
      | none => WalkResult.keyError
      | some b =>
          match get_summary_from_sha ctxt b with
          | some c => WalkResult.found c
          | none => walkFuel ctxt fuel rest b) := by
  have hpop : dictPop ((a, ev) :: rest) a = (some ev, rest) := by
    simp [dictPop]
  show (match dictPop ((a, ev) :: rest) a with
    | (none, _) => WalkResult.stopped
    | (some ev2, m2) =>
        match ev2.before with
        | none => WalkResult.keyError
        | some b =>
            match get_summary_from_sha ctxt b with
            | some c => WalkResult.found c
            | none => walkFuel ctxt fuel m2 b) = _
  rw [hpop]

lemma walk_chain (ctxt : Ctxt) (S : Check) :
    ∀ (ch : List (String × String)) (a b : String),
    chainOk ctxt S ((a, b) :: ch) →
    walk ctxt (chainMap ((a, b) :: ch)) a = WalkResult.found S := by
  intro ch
  induction ch with
  | nil =>
      intro a b h
      have hs : get_summary_from_sha ctxt b = some S := h
      show walkFuel ctxt (0 + 1) [(a, chainEvent (a, b))] a = WalkResult.found S
      rw [walkFuel_cons_self]
      simp [chainEvent, hs]
  | cons p rest ih =>
      intro a b h
      rcases p with ⟨a2, b2⟩
      obtain ⟨hnone, hlink, htail⟩ := h
      subst hlink
      show walkFuel ctxt ((chainMap ((b, b2) :: rest)).length + 1)
          ((a, chainEvent (a, b)) :: chainMap ((b, b2) :: rest)) a =
        WalkResult.found S
      rw [walkFuel_cons_self]
      simp only [chainEvent, hnone]
      exact ih b b2 htail

/-- C1: when no Summary exists for the head and no persisted pointer is
available, and the batch's synchronize events form a chain from the current
head down to a revision that carries the Summary (and only that revision
carries one along the chain), ensure_summary_on_head_sha republishes that
Summary (same title and body) against the current head and saves the pointer
to the current head revision. -/
theorem ensure_chain_republishes (ctxt : Ctxt) (S : Check)
    (ch : List (String × String)) (a b : String)
    (hnosum : (pull_engine_check_runs ctxt).any (fun c => c.name == SUMMARY_NAME) = false)
    (hptr : truthy (get_last_summary_head_sha ctxt) = false)
    (hmap : synchronize_events ctxt.sources = chainMap ((a, b) :: ch))
    (hhead : ctxt.headSha = a)
    (hchain : chainOk ctxt S ((a, b) :: ch)) :
    ∃ ctxt2, ensure_summary_on_head_sha ctxt =
        Except.ok (ctxt2,
          [Effect.setCheckRun ctxt.headSha SUMMARY_NAME "completed" "success"
             S.output.title S.output.summary [],
           Effect.savePointer ctxt.headSha]) ∧
      ctxt2.pointer = some ctxt.headSha := by
  have hwalk : walk ctxt (chainMap ((a, b) :: ch)) ctxt.headSha =
      WalkResult.found S := by
    rw [hhead]
    exact walk_chain ctxt S ch a b hchain
  have hsync : get_summary_from_synchronize_event ctxt = Except.ok (some S) := by
    simp only [get_summary_from_synchronize_event, hmap, hwalk]
    rfl
  unfold ensure_summary_on_head_sha
  rw [if_neg (by rw [hnosum]; exact Bool.false_ne_true)]
  simp only [hptr, Bool.false_eq_true, if_false, hsync]
  exact ⟨_, rfl, rfl⟩

/-- A synchronize event from "m1" to "h" (first link of the witness chain). -/
def evSyncHM : Event :=
  { event_type := "pull_request",
    data := { action := "synchronize", after := some "h", before := some "m1",
              comment := none } }

/-- A synchronize event from "b0" to "m1" (second link of the witness chain). -/
def evSyncMB : Event :=
  { event_type := "pull_request",
    data := { action := "synchronize", after := some "m1", before := some "b0",
              comment := none } }

/-- Witness context for C1: two-link synchronize chain from the head "h" down
to "b0", which alone carries the Summary; no pointer, no checks at the head. -/
def ctxtW1 : Ctxt :=
  { baseCtxt with
    sources := [evSyncHM, evSyncMB]
    checks := fun s => (if s = "b0" then [summaryCheckW] else []) }

/-- Witness for C1 at the two-link chain context. -/
theorem ensure_chain_republishes_witness :
    ((pull_engine_check_runs ctxtW1).any (fun c => c.name == SUMMARY_NAME) = false) ∧
    truthy (get_last_summary_head_sha ctxtW1) = false ∧
    synchronize_events ctxtW1.sources = chainMap [("h", "m1"), ("m1", "b0")] ∧
    ctxtW1.headSha = "h" ∧
    chainOk ctxtW1 summaryCheckW [("h", "m1"), ("m1", "b0")] ∧
    (∃ ctxt2, ensure_summary_on_head_sha ctxtW1 =
        Except.ok (ctxt2,
          [Effect.setCheckRun ctxtW1.headSha SUMMARY_NAME "completed" "success"
             summaryCheckW.output.title summaryCheckW.output.summary [],
           Effect.savePointer ctxtW1.headSha]) ∧
      ctxt2.pointer = some ctxtW1.headSha) :=
  ⟨rfl, rfl, rfl, rfl, ⟨rfl, rfl, rfl⟩,
    ensure_chain_republishes ctxtW1 summaryCheckW [("m1", "b0")] "h" "m1"
      rfl rfl rfl rfl ⟨rfl, rfl, rfl⟩⟩

lemma dictPop_of_lookup_none :
    ∀ (m : List (String × EventData)) (k : String),
    dictLookup m k = none → dictPop m k = (none, m) := by
  intro m
  induction m with
  | nil => intro k _; rfl
  | cons p rest ih =>
      intro k h
      unfold dictLookup at h
      have hfind : List.find? (fun q => q.1 == k) (p :: rest) =
          (bif p.1 == k then some p else List.find? (fun q => q.1 == k) rest) := rfl
      rw [hfind] at h
      cases hk : p.1 == k with
      | true =>
          rw [hk] at h
          simp at h
      | false =>
          rw [hk] at h
          simp only [cond_false] at h
          have hrec := ih k h
          simp [dictPop, hk, hrec]

lemma walk_gap (ctxt : Ctxt) (m : List (String × EventData)) (sha : String)
    (h : dictLookup m sha = none) : walk ctxt m sha = WalkResult.stopped := by
  cases m with
  | nil => rfl
  | cons p rest =>
      show walkFuel ctxt (rest.length + 1) (p :: rest) sha = WalkResult.stopped
      have hpop := dictPop_of_lookup_none (p :: rest) sha h
      simp only [walkFuel, hpop]

lemma gap_means_no_summary (ctxt : Ctxt)
    (h : dictLookup (synchronize_events ctxt.sources) ctxt.headSha = none) :
    get_summary_from_synchronize_event ctxt = Except.ok none := by
  unfold get_summary_from_synchronize_event
  by_cases he : (synchronize_events ctxt.sources).isEmpty
  · simp [he]
  · simp [he, walk_gap ctxt _ _ h]

lemma dictInsert_length (m : List (String × EventData)) (k : String)
    (v : EventData) : (dictInsert m k v).length ≤ m.length + 1 := by
  unfold dictInsert
  split
  · rw [List.length_map]
    exact Nat.le_succ _
  · simp

lemma synchronize_events_length_le :
    ∀ (l : List Event) (acc : List (String × EventData)),
    (List.foldl sync_step acc l).length ≤
      acc.length + (l.filter is_synchronize).length := by
  intro l
  induction l with
  | nil => intro acc; simp
  | cons s rest ih =>
      intro acc
      rw [List.foldl_cons, List.filter_cons]
      cases hs : is_synchronize s with
      | true =>
          have hstep : (sync_step acc s).length ≤ acc.length + 1 := by
            unfold sync_step sync_key
            rw [hs, if_pos rfl]
            cases s.data.after with
            | none => simp
            | some k => exact dictInsert_length acc k s.data
          have hrec := ih (sync_step acc s)
          simp [hs]
          omega
      | false =>
          have hstep : sync_step acc s = acc := by
            unfold sync_step sync_key
            rw [hs]
            rfl
          rw [hstep]
          simpa using ih acc

/-- C5: the continuity walk ends within as many iterations as the
synchronize-event dict has entries (any budget of at least the dict size gives
the loop's result), the dict has at most as many entries as the batch has
synchronize events, and when the current head revision is not a key of the
dict the walk stops, republishing nothing and raising nothing. -/
theorem continuity_walk_bounded_and_gap (ctxt : Ctxt) (fuel : Nat) :
    ((synchronize_events ctxt.sources).length ≤ fuel →
      walkFuel ctxt fuel (synchronize_events ctxt.sources) ctxt.headSha =
        walk ctxt (synchronize_events ctxt.sources) ctxt.headSha)
    ∧ (synchronize_events ctxt.sources).length ≤
        (ctxt.sources.filter is_synchronize).length
    ∧ (dictLookup (synchronize_events ctxt.sources) ctxt.headSha = none →
        walk ctxt (synchronize_events ctxt.sources) ctxt.headSha = WalkResult.stopped
        ∧ get_summary_from_synchronize_event ctxt = Except.ok none) := by
  refine ⟨?_, ?_, ?_⟩
  · intro h
    exact walkFuel_stable ctxt fuel _ _ h
  · simpa using synchronize_events_length_le ctxt.sources []
  · intro h
    exact ⟨walk_gap ctxt _ _ h, gap_means_no_summary ctxt h⟩

/-- A pull_request synchronize event that carries an after revision but no
before field. -/
def evSyncNoBefore : Event :=
  { event_type := "pull_request",
    data := { action := "synchronize", after := some "a", before := none,
              comment := none } }

/-- C3 counterexample: the synchronize-event dict keeps an event that carries
no before field (the code filters on the presence of after, not before), so
the mapping is not restricted to events carrying a before field. -/
theorem synchronize_events_keeps_before_less_event :
    synchronize_events [evSyncNoBefore] = [("a", evSyncNoBefore.data)] ∧
    evSyncNoBefore.data.before = none :=
  ⟨rfl, rfl⟩

lemma dictInsert_mem {m : List (String × EventData)} {k : String}
    {v : EventData} {x : String × EventData} (hx : x ∈ dictInsert m k v) :
    x ∈ m ∨ x = (k, v) := by
  unfold dictInsert at hx
  split at hx
  · obtain ⟨y, hy, hxy⟩ := List.mem_map.mp hx
    cases hk : y.1 == k with
    | true =>
        rw [hk] at hxy
        simp only [if_pos rfl] at hxy
        right
        exact hxy.symm
    | false =>
        rw [hk] at hxy
        simp only [Bool.false_eq_true, if_false] at hxy
        left
        rw [← hxy]
        exact hy
  · rcases List.mem_append.mp hx with h | h
    · exact Or.inl h
    · right
      simpa using h

lemma dictInsert_key_self (m : List (String × EventData)) (k : String)
    (v : EventData) : ∃ d, (k, d) ∈ dictInsert m k v := by
  unfold dictInsert
  split
  · next hany =>
      obtain ⟨y, hy, hyk⟩ := List.any_eq_true.mp hany
      refine ⟨v, List.mem_map.mpr ⟨y, hy, ?_⟩⟩
      rw [hyk]
      simp
  · exact ⟨v, by simp⟩

lemma dictInsert_key_mono {m : List (String × EventData)} {k0 : String}
    (h : ∃ d, (k0, d) ∈ m) (k : String) (v : EventData) :
    ∃ d, (k0, d) ∈ dictInsert m k v := by
  obtain ⟨d, hd⟩ := h
  unfold dictInsert
  split
  · cases hk : k0 == k with
    | true =>
        have : k0 = k := by simpa using hk
        subst this
        refine ⟨v, List.mem_map.mpr ⟨(k0, d), hd, ?_⟩⟩
        simp
    | false =>
        refine ⟨d, List.mem_map.mpr ⟨(k0, d), hd, ?_⟩⟩
        simp [hk]
  · exact ⟨d, List.mem_append.mpr (Or.inl hd)⟩

lemma synchronize_events_sound_aux :
    ∀ (l : List Event) (acc : List (String × EventData)) (x : String × EventData),
    x ∈ List.foldl sync_step acc l →
    x ∈ acc ∨ ∃ s, s ∈ l ∧ sync_key s = some x.1 ∧ s.data = x.2 := by
  intro l
  induction l with
  | nil => intro acc x h; exact Or.inl h
  | cons s rest ih =>
      intro acc x h
      rw [List.foldl_cons] at h
      rcases ih (sync_step acc s) x h with h2 | ⟨s2, hs2, hk2, hd2⟩
      · unfold sync_step at h2
        cases hq : sync_key s with
        | none =>
            rw [hq] at h2
            exact Or.inl h2
        | some k =>
            rw [hq] at h2
            rcases dictInsert_mem h2 with hm | hx
            · exact Or.inl hm
            · right
              refine ⟨s, List.mem_cons_self s rest, ?_, ?_⟩
              · rw [hq, hx]
              · rw [hx]
      · right
        exact ⟨s2, List.mem_cons_of_mem s hs2, hk2, hd2⟩

lemma synchronize_events_complete_aux :
    ∀ (l : List Event) (acc : List (String × EventData)) (k : String),
    ((∃ d, (k, d) ∈ acc) ∨ ∃ s, s ∈ l ∧ sync_key s = some k) →
    ∃ d, (k, d) ∈ List.foldl sync_step acc l := by
  intro l
  induction l with
  | nil =>
      intro acc k h
      rcases h with h | ⟨s, hs, _⟩
      · exact h
      · cases hs
  | cons s rest ih =>
      intro acc k h
      rw [List.foldl_cons]
      apply ih (sync_step acc s) k
      rcases h with hacc | ⟨s2, hs2, hk2⟩
      · left
        unfold sync_step
        cases hq : sync_key s with
        | none => exact hacc
        | some k2 => exact dictInsert_key_mono hacc k2 s.data
      · rcases List.mem_cons.mp hs2 with heq | hmem
        · left
          subst heq
          unfold sync_step
          rw [hk2]
          exact dictInsert_key_self acc k s2.data
        · right
          exact ⟨s2, hmem, hk2⟩

lemma sync_key_eq_some (s : Event) (k : String) :
    sync_key s = some k ↔
      (s.event_type = "pull_request" ∧ s.data.action = "synchronize" ∧
        s.data.after = some k) := by
  unfold sync_key is_synchronize
  cases hb : s.event_type == "pull_request" && s.data.action == "synchronize" with
  | true =>
      simp only [if_pos rfl]
      simp only [Bool.and_eq_true, beq_iff_eq] at hb
      tauto
  | false =>
      simp only [Bool.false_eq_true, if_false]
      constructor
      · intro h; cases h
      · intro ⟨h1, h2, _⟩
        rw [h1, h2] at hb
        simp at hb

/-- C3 amended: the dict built by the continuity walk contains exactly the
batch's pull_request events whose action is "synchronize" and that carry an
after field, keyed by the after revision (an event with the same after
revision as an earlier one overrides it), and no other events. -/
theorem synchronize_events_exactly_after_keyed (sources : List Event) :
    (∀ x ∈ synchronize_events sources, ∃ s, s ∈ sources ∧
        s.event_type = "pull_request" ∧ s.data.action = "synchronize" ∧
        s.data.after = some x.1 ∧ s.data = x.2)
    ∧ (∀ s ∈ sources, ∀ k, s.event_type = "pull_request" →
        s.data.action = "synchronize" → s.data.after = some k →
        ∃ d, (k, d) ∈ synchronize_events sources) := by
  constructor
  · intro x hx
    rcases synchronize_events_sound_aux sources [] x hx with h | ⟨s, hs, hk, hd⟩
    · cases h
    · obtain ⟨h1, h2, h3⟩ := (sync_key_eq_some s x.1).mp hk
      exact ⟨s, hs, h1, h2, h3, hd⟩
  · intro s hs k h1 h2 h3
    apply synchronize_events_complete_aux sources [] k
    right
    exact ⟨s, hs, (sync_key_eq_some s k).mpr ⟨h1, h2, h3⟩⟩

/-! ## Claim theorems for the event router -/

/-- C6: when a run reaches the rule evaluator (valid configuration and every
earlier gate passed), the rule list handed over is the repository's rules
extended with the baseline rules: its length is the sum of both counts, the
repository rules sit at the front in order, and the baseline rules occupy the
tail in their original order. -/
theorem run_merged_rules (ctxt0 ctxtS ctxt3 : Ctxt) (sources : List Event)
    (cmdEffs ensEffs : List Effect) (fn : String) (repoRules : List String)
    (hS : ctxtS = { ctxt0 with
      sources := sources.filter (fun s => s.event_type != "issue_comment") })
    (hcmd : commandEffects (sources.filter (fun s => s.event_type == "issue_comment")) =
      Except.ok cmdEffs)
    (hne : ctxtS.sources.isEmpty = false)
    (hperm : ctxt0.permissionsStale = false)
    (hcc : check_configuration_changes ctxtS = Except.ok (false, ctxtS, []))
    (hcfg : ctxt0.configResult = ConfigResult.valid fn repoRules)
    (hpriv : (ctxt0.basePrivate && !ctxt0.hasPrivateRepoFeature) = false)
    (hens : ensure_summary_on_head_sha ctxtS = Except.ok (ctxt3, ensEffs)) :
    ∃ ctxtF effs, run ctxt0 sources = Except.ok (ctxtF, effs) ∧
      Effect.handleActions (repoRules ++ ctxt0.defaultRules) ∈ effs ∧
      (repoRules ++ ctxt0.defaultRules).length =
        repoRules.length + ctxt0.defaultRules.length ∧
      (repoRules ++ ctxt0.defaultRules).take repoRules.length = repoRules ∧
      (repoRules ++ ctxt0.defaultRules).drop repoRules.length = ctxt0.defaultRules := by
  have hcfgS : ctxtS.configResult = ConfigResult.valid fn repoRules := by
    rw [hS]; exact hcfg
  have hprivS : (ctxtS.basePrivate && !ctxtS.hasPrivateRepoFeature) = false := by
    rw [hS]; exact hpriv
  have hdefS : ctxtS.defaultRules = ctxt0.defaultRules := by rw [hS]
  have hneF : (sources.filter (fun s => s.event_type != "issue_comment")).isEmpty
      = false := by
    rw [hS] at hne; exact hne
  simp only [run]
  rw [← hS]
  simp only [hcmd, hneF, hperm, Bool.false_eq_true, if_false, hcc, hcfgS,
    hprivS, hens, hdefS]
  refine ⟨_, _, rfl, ?_, ?_, ?_, ?_⟩
  · exact List.mem_append.mpr (Or.inr (List.mem_singleton.mpr rfl))
  · simp
  · exact List.take_left repoRules ctxt0.defaultRules
  · exact List.drop_left repoRules ctxt0.defaultRules

/-- A pull_request opened event, used by witnesses. -/
def evOpened : Event :=
  { event_type := "pull_request",
    data := { action := "opened", after := none, before := none, comment := none } }

/-- Witness root context for C6: a valid configuration with two repository
rules and one baseline rule. -/
def ctxt0W6 : Ctxt :=
  { baseCtxt with
    configResult := ConfigResult.valid "mergify.yml" ["r1", "r2"]
    defaultRules := ["d1"] }

/-- The C6 witness context with its event sources attached. -/
def ctxtSW6 : Ctxt := { ctxt0W6 with sources := [evOpened] }

/-- Witness for C6 at a concrete run with two repository rules and one
baseline rule. -/
theorem run_merged_rules_witness :
    ∃ ctxtF effs, run ctxt0W6 [evOpened] = Except.ok (ctxtF, effs) ∧
      Effect.handleActions (["r1", "r2"] ++ ctxt0W6.defaultRules) ∈ effs ∧
      (["r1", "r2"] ++ ctxt0W6.defaultRules).length =
        ["r1", "r2"].length + ctxt0W6.defaultRules.length ∧
      (["r1", "r2"] ++ ctxt0W6.defaultRules).take ["r1", "r2"].length = ["r1", "r2"] ∧
      (["r1", "r2"] ++ ctxt0W6.defaultRules).drop ["r1", "r2"].length =
        ctxt0W6.defaultRules :=
  run_merged_rules ctxt0W6 ctxtSW6 ctxtSW6 [evOpened] [] [] "mergify.yml"
    ["r1", "r2"] rfl rfl rfl rfl rfl rfl rfl rfl

/-- A pull_request closed event. -/
def evClosed : Event :=
  { event_type := "pull_request",
    data := { action := "closed", after := none, before := none, comment := none } }

/-- The C7 counterexample context: stale permissions and a persisted pointer. -/
def ctxtC7 : Ctxt :=
  { baseCtxt with
    permissionsStale := true
    pointer := some "p" }

/-- C7 counterexample: a run whose batch contains a closed pull_request event
but which stops at the stale-permissions gate does not delete the persisted
pointer, so the deletion is not performed on every run containing a closed
event. -/
theorem run_closed_without_delete :
    ∃ c effs, run ctxtC7 [evClosed] = Except.ok (c, effs) ∧
      c.pointer = some "p" ∧ Effect.deletePointer ∉ effs := by
  refine ⟨_, _, rfl, rfl, ?_⟩
  decide

lemma ensure_preserves_sources (ctxt r : Ctxt) (effs : List Effect)
    (h : ensure_summary_on_head_sha ctxt = Except.ok (r, effs)) :
    r.sources = ctxt.sources := by
  simp only [ensure_summary_on_head_sha] at h
  split at h
  · rw [Except.ok.injEq, Prod.mk.injEq] at h
    rw [← h.1]
  · split at h
    · cases h
    · rw [Except.ok.injEq, Prod.mk.injEq] at h
      rw [← h.1]
    · rw [Except.ok.injEq, Prod.mk.injEq] at h
      rw [← h.1]
      rfl

/-- C7 amended: for every run that reaches the continuity stage (non-comment
events present, fresh permissions, no configuration change, valid
configuration, entitlement satisfied, continuity step completed) and whose
batch contains a closed pull_request event, the persisted pointer is deleted —
also when no continuity work was needed because a Summary already existed. -/
theorem run_closed_deletes_pointer (ctxt0 ctxtS ctxt3 : Ctxt) (sources : List Event)
    (cmdEffs ensEffs : List Effect) (fn : String) (repoRules : List String)
    (hS : ctxtS = { ctxt0 with
      sources := sources.filter (fun s => s.event_type != "issue_comment") })
    (hcmd : commandEffects (sources.filter (fun s => s.event_type == "issue_comment")) =
      Except.ok cmdEffs)
    (hne : ctxtS.sources.isEmpty = false)
    (hperm : ctxt0.permissionsStale = false)
    (hcc : check_configuration_changes ctxtS = Except.ok (false, ctxtS, []))
    (hcfg : ctxt0.configResult = ConfigResult.valid fn repoRules)
    (hpriv : (ctxt0.basePrivate && !ctxt0.hasPrivateRepoFeature) = false)
    (hens : ensure_summary_on_head_sha ctxtS = Except.ok (ctxt3, ensEffs))
    (hclosed : ctxtS.sources.any (fun s =>
      s.event_type == "pull_request" && s.data.action == "closed") = true) :
    ∃ ctxtF effs, run ctxt0 sources = Except.ok (ctxtF, effs) ∧
      Effect.deletePointer ∈ effs ∧ ctxtF.pointer = none := by
  have hcfgS : ctxtS.configResult = ConfigResult.valid fn repoRules := by
    rw [hS]; exact hcfg
  have hprivS : (ctxtS.basePrivate && !ctxtS.hasPrivateRepoFeature) = false := by
    rw [hS]; exact hpriv
  have hneF : (sources.filter (fun s => s.event_type != "issue_comment")).isEmpty
      = false := by
    rw [hS] at hne; exact hne
  have hclosed3 : ctxt3.sources.any (fun s =>
      s.event_type == "pull_request" && s.data.action == "closed") = true := by
    rw [ensure_preserves_sources ctxtS ctxt3 ensEffs hens]
    exact hclosed
  simp only [run]
  rw [← hS]
  simp only [hcmd, hneF, hperm, Bool.false_eq_true, if_false, hcc, hcfgS,
    hprivS, hens, hclosed3, if_true]
  refine ⟨_, _, rfl, ?_, rfl⟩
  simp

/-- Witness root context for C7: a persisted pointer and a Summary already on
the head, so no continuity work is needed. -/
def ctxt0W7 : Ctxt :=
  { baseCtxt with
    pointer := some "p"
    checks := fun s => (if s = "h" then [summaryCheckW] else []) }

/-- The C7 witness context with the closed event attached. -/
def ctxtSW7 : Ctxt := { ctxt0W7 with sources := [evClosed] }

/-- Witness for the amended C7 at a concrete run whose batch holds a closed
pull_request event and whose head already carries the Summary. -/
theorem run_closed_deletes_pointer_witness :
    ∃ ctxtF effs, run ctxt0W7 [evClosed] = Except.ok (ctxtF, effs) ∧
      Effect.deletePointer ∈ effs ∧ ctxtF.pointer = none :=
  run_closed_deletes_pointer ctxt0W7 ctxtSW7 ctxtSW7 [evClosed] [] []
    "mergify.yml" [] rfl rfl rfl rfl rfl rfl rfl rfl rfl
